import Mathlib

/-
Verification of the ArgoAgent context-aggregation and request pipeline.

The Python sources (argoagent/cli.py, argoagent/api.py, argoagent/models.py,
argoagent/file_handlers.py) are shallowly embedded below.  Python strings are
modeled as lists of characters (type PyStr) so that every operation is a
structurally recursive Lean function that the kernel can evaluate; Python
floats used for sampling parameters are modeled as rationals, and machine
integers as Int/Nat (no overflow is relevant at the sizes involved).
Filesystem access, the tiktoken token counter, and the HTTP transport are
external collaborators: they enter as explicit function parameters, exactly
at the call sites the source uses them.
-/

set_option autoImplicit false

namespace ArgoAgent

/-- Python strings, modeled as their character sequences. -/
abbrev PyStr := List Char

/-- Decidable equality for Except results, used to evaluate the embedded
functions on concrete inputs. -/
instance {ε α : Type} [DecidableEq ε] [DecidableEq α] : DecidableEq (Except ε α)
  | .ok a, .ok b =>
    if h : a = b then .isTrue (congrArg Except.ok h)
    else .isFalse (fun hh => h (Except.ok.inj hh))
  | .ok _, .error _ => .isFalse (fun hh => Except.noConfusion hh)
  | .error _, .ok _ => .isFalse (fun hh => Except.noConfusion hh)
  | .error e, .error f =>
    if h : e = f then .isTrue (congrArg Except.error h)
    else .isFalse (fun hh => h (Except.error.inj hh))

/-- Python str.lower (per-character case folding, as used on file names). -/
def pyLower (s : PyStr) : PyStr := s.map Char.toLower

/-- Python str.startswith. -/
def pyStartsWith (s pre : PyStr) : Bool := List.isPrefixOf pre s

/-- Python str.endswith. -/
def pyEndsWith (s suffix : PyStr) : Bool := List.isSuffixOf suffix s

/-- Python substring membership, the test written as pat in s. -/
def pyContainsSub (pat : PyStr) : PyStr → Bool
  | [] => pat.isEmpty
  | c :: rest => List.isPrefixOf pat (c :: rest) || pyContainsSub pat rest

/-- Helper for pyReplace: fuel-indexed scan so the recursion is structural.
The fuel starts at the length of the subject string; each step consumes at
least one character, so the fuel never runs out on the intended calls. -/
def pyReplaceFuel (pat rep : PyStr) : Nat → PyStr → PyStr
  | 0, s => s
  | _ + 1, [] => []
  | fuel + 1, c :: rest =>
    if pat ≠ [] ∧ List.isPrefixOf pat (c :: rest) then
      rep ++ pyReplaceFuel pat rep fuel (List.drop (pat.length - 1) rest)
    else
      c :: pyReplaceFuel pat rep fuel rest

/-- Python str.replace: every non-overlapping occurrence of pat, scanned left
to right, is replaced by rep (the source only uses a non-empty pattern). -/
def pyReplace (s pat rep : PyStr) : PyStr := pyReplaceFuel pat rep s.length s

/-- Helper for pySplitlines: split at newline characters. -/
def splitLinesAux : PyStr → PyStr → List PyStr
  | [], acc => [acc.reverse]
  | c :: rest, acc =>
    if c = '\n' then acc.reverse :: splitLinesAux rest []
    else splitLinesAux rest (c :: acc)

/-- Python str.splitlines, with the newline character as line terminator:
the empty string yields no lines, and a trailing terminator does not produce
a trailing empty line. -/
def pySplitlines (s : PyStr) : List PyStr :=
  if s.isEmpty then []
  else if pyEndsWith s ['\n'] then (splitLinesAux s []).dropLast
  else splitLinesAux s []

/-- Python "\n".join. -/
def pyJoin (sep : PyStr) (parts : List PyStr) : PyStr := List.intercalate sep parts

/-- Filesystem collaborator: the operating-system calls made by cli.py.
glob models glob.glob, walk models os.walk flattened to (root, file name)
pairs in traversal order, read models file_handlers.read_file_content
(returning none when extraction fails). -/
structure FS where
  isFile : PyStr → Bool
  isDir : PyStr → Bool
  glob : PyStr → List PyStr
  walk : PyStr → List (PyStr × PyStr)
  read : PyStr → Option PyStr

/-- Extension allow-list from file_handlers.get_supported_extensions. -/
def get_supported_extensions : List PyStr :=
  [".txt".data, ".csv".data, ".json".data, ".xml".data, ".html".data,
   ".htm".data, ".py".data, ".js".data, ".java".data, ".c".data,
   ".cpp".data, ".h".data, ".hpp".data, ".cs".data, ".rb".data,
   ".php".data, ".go".data, ".rs".data, ".swift".data, ".kt".data,
   ".scala".data, ".sh".data, ".bash".data, ".zsh".data, ".fish".data,
   ".md".data, ".markdown".data, ".rst".data, ".ini".data, ".cfg".data,
   ".conf".data, ".yaml".data, ".yml".data, ".toml".data, ".env".data,
   ".gitignore".data, ".pdf".data, ".docx".data, ".xlsx".data, ".xls".data,
   ".pptx".data, ".ppt".data]

/-- Filter applied in handle_directory: any(file.lower().endswith(ext) for
ext in supported_extensions). -/
def isSupportedFile (file : PyStr) : Bool :=
  get_supported_extensions.any (fun ext => pyEndsWith (pyLower file) ext)

/-- os.path.join root file, for the paths built inside handle_directory. -/
def joinPath (root file : PyStr) : PyStr := root ++ ('/' :: file)

/-- Wildcard test from get_context_from_paths: a star or question mark
occurring in the path specification. -/
def hasWildcard (p : PyStr) : Bool := p.contains '*' || p.contains '?'

/-- Error raised by the handlers; cli.TokenLimitExceededError carrying the
running total and the limit from its message. -/
inductive AggError where
  | tokenLimitExceeded (total limit : Nat)
deriving DecidableEq

/-- Python dict insertion: an existing key keeps its position and gets the
new value, a fresh key is appended. -/
def dictInsert (d : List (PyStr × PyStr)) (k v : PyStr) : List (PyStr × PyStr) :=
  if d.any (fun e => e.1 == k) then d.map (fun e => if e.1 == k then (k, v) else e)
  else d ++ [(k, v)]

/-- Python dict.update: insert every entry of the second mapping in order. -/
def dictUpdate : List (PyStr × PyStr) → List (PyStr × PyStr) → List (PyStr × PyStr)
  | d, [] => d
  | d, e :: es => dictUpdate (dictInsert d e.1 e.2) es

/-- Shared body of the loops in handle_wildcard_pattern, handle_directory and
handle_single_file (cli.py lines 55-73, 85-104, 116-130): for each candidate
file, read it (skipping failures), store the text under the file path, and
when a budget is supplied count tokens, add a successful count to the running
total, and raise TokenLimitExceededError the moment the total exceeds the
limit (strict greater-than, checked after the addition). -/
def processFiles (read : PyStr → Option PyStr) (count : PyStr → Option Nat)
    (maxTokens : Option Nat) :
    List PyStr → List (PyStr × PyStr) → Nat → Except AggError (List (PyStr × PyStr) × Nat)
  | [], ctx, total => .ok (ctx, total)
  | p :: ps, ctx, total =>
    match read p with
    | none => processFiles read count maxTokens ps ctx total
    | some content =>
      let ctx2 := dictInsert ctx p content
      match maxTokens with
      | none => processFiles read count maxTokens ps ctx2 total
      | some limit =>
        match count content with
        | none => processFiles read count maxTokens ps ctx2 total
        | some tk =>
          if total + tk > limit then .error (.tokenLimitExceeded (total + tk) limit)
          else processFiles read count maxTokens ps ctx2 (total + tk)

/-- cli.handle_wildcard_pattern: glob the pattern and process the matches
that are regular files (an empty match set only logs a warning). -/
def handle_wildcard_pattern (fs : FS) (count : PyStr → Option Nat)
    (path : PyStr) (maxTokens : Option Nat) :
    Except AggError (List (PyStr × PyStr) × Nat) :=
  processFiles fs.read count maxTokens ((fs.glob path).filter fs.isFile) [] 0

/-- cli.handle_directory: walk the tree and process files passing the
supported-extension filter, keyed by os.path.join(root, file). -/
def handle_directory (fs : FS) (count : PyStr → Option Nat)
    (path : PyStr) (maxTokens : Option Nat) :
    Except AggError (List (PyStr × PyStr) × Nat) :=
  processFiles fs.read count maxTokens
    (((fs.walk path).filter (fun e => isSupportedFile e.2)).map (fun e => joinPath e.1 e.2)) [] 0

/-- cli.handle_single_file: process exactly the named path, unfiltered. -/
def handle_single_file (fs : FS) (count : PyStr → Option Nat)
    (path : PyStr) (maxTokens : Option Nat) :
    Except AggError (List (PyStr × PyStr) × Nat) :=
  processFiles fs.read count maxTokens [path] [] 0

/-- Dispatch on one path specification, mirroring the if/elif chain of
get_context_from_paths (wildcard, directory, single file, else warn-and-skip). -/
def dispatchSpec (fs : FS) (count : PyStr → Option Nat)
    (path : PyStr) (maxTokens : Option Nat) :
    Except AggError (List (PyStr × PyStr) × Nat) :=
  if hasWildcard path then handle_wildcard_pattern fs count path maxTokens
  else if fs.isDir path then handle_directory fs count path maxTokens
  else if fs.isFile path then handle_single_file fs count path maxTokens
  else .ok ([], 0)

/-- Loop of cli.get_context_from_paths: per specification, run the handler,
merge its mapping with dict.update and add its subtotal; a
TokenLimitExceededError is terminal for the whole call (the source calls
sys.exit(1), discarding everything accumulated). -/
def get_context_loop (fs : FS) (count : PyStr → Option Nat) (maxTokens : Option Nat) :
    List PyStr → List (PyStr × PyStr) → Nat → Except AggError (List (PyStr × PyStr) × Nat)
  | [], ctx, total => .ok (ctx, total)
  | p :: ps, ctx, total =>
    match dispatchSpec fs count p maxTokens with
    | .error e => .error e
    | .ok (newCtx, newTokens) =>
      get_context_loop fs count maxTokens ps (dictUpdate ctx newCtx) (total + newTokens)

/-- cli.get_context_from_paths: aggregate context over the path
specifications, starting from the empty mapping and a zero total.  The
source finally serializes the mapping to JSON; the mapping itself together
with the total is returned here. -/
def get_context_from_paths (fs : FS) (count : PyStr → Option Nat)
    (paths : List PyStr) (maxTokens : Option Nat) :
    Except AggError (List (PyStr × PyStr) × Nat) :=
  get_context_loop fs count maxTokens paths [] 0

/-- File list that a single path specification leads the dispatcher to
process (the read/count loop of the chosen handler runs exactly over this
list, in this order). -/
def resolveSpec (fs : FS) (path : PyStr) : List PyStr :=
  if hasWildcard path then (fs.glob path).filter fs.isFile
  else if fs.isDir path then
    ((fs.walk path).filter (fun e => isSupportedFile e.2)).map (fun e => joinPath e.1 e.2)
  else if fs.isFile path then [path]
  else []

/-- Model configuration record from models.VALID_MODELS. -/
structure ModelConfig where
  max_tokens : Int
  supports_standard_params : Bool
deriving DecidableEq

/-- models.VALID_MODELS, the static model table. -/
def VALID_MODELS : List (PyStr × ModelConfig) :=
  [("gpt35".data, ⟨4096, true⟩),
   ("gpt35large".data, ⟨16384, true⟩),
   ("gpt4".data, ⟨8192, true⟩),
   ("gpt4large".data, ⟨32768, true⟩),
   ("gpt4turbo".data, ⟨4096, true⟩),
   ("gpt4o".data, ⟨16384, true⟩),
   ("gpt4olatest".data, ⟨16384, true⟩),
   ("gpto1preview".data, ⟨16384, false⟩),
   ("gpto1mini".data, ⟨65536, false⟩),
   ("gpto3mini".data, ⟨100000, false⟩),
   ("gpto1".data, ⟨200000, false⟩)]

/-- models.validate_model: look the name up in VALID_MODELS, raising
ValueError (the error case) for names absent from the table. -/
def validate_model (model : PyStr) : Except Unit ModelConfig :=
  match VALID_MODELS.find? (fun e => e.1 == model) with
  | some e => .ok e.2
  | none => .error ()

/-- api.validate_parameters: temperature in [0,2], top_p in [0,1],
max_tokens strictly positive; the first violation raises ValueError. -/
def validate_parameters (temperature top_p : ℚ) (max_tokens : Int) : Except Unit Unit :=
  if ¬ (0 ≤ temperature ∧ temperature ≤ 2) then .error ()
  else if ¬ (0 ≤ top_p ∧ top_p ≤ 1) then .error ()
  else if max_tokens ≤ 0 then .error ()
  else .ok ()

/-- Response delivered by the HTTP transport for one attempt.  body is the
result of decoding the response text as JSON: none when undecodable
(json.JSONDecodeError), some none for a JSON object without a response
field, some (some s) when the response field holds s. -/
structure HttpResponse where
  status : Nat
  body : Option (Option PyStr)
deriving DecidableEq

/-- Failure modes of make_api_request, each recording how many transport
attempts had been made: requestException is the
requests.exceptions.RequestException path after urllib3 exhausts its
retries, httpStatusError is response.raise_for_status on a 4xx/5xx, and
jsonDecodeError is the re-raised JSON decoding failure. -/
inductive ApiError where
  | requestException (attempts : Nat)
  | httpStatusError (status : Nat) (attempts : Nat)
  | jsonDecodeError (attempts : Nat)
deriving DecidableEq

/-- Outcome of the urllib3 retry loop around session.post. -/
inductive PostOutcome where
  | resp (r : HttpResponse)
  | exhausted
deriving DecidableEq

/-- status_forcelist of the Retry strategy in api.make_api_request. -/
def statusForcelist : List Nat := [500, 502, 503, 504]

/-- Default method set of urllib3 Retry (DEFAULT_ALLOWED_METHODS, the
method_whitelist of the vendored versions): status-based retries apply only
to these idempotent methods.  The source's Retry leaves this default in
place. -/
def DEFAULT_ALLOWED_METHODS : List PyStr :=
  ["HEAD".data, "GET".data, "PUT".data, "DELETE".data, "OPTIONS".data, "TRACE".data]

/-- urllib3 Retry._is_method_retryable with the default allowed-method set:
the (upper-cased) request method must be in DEFAULT_ALLOWED_METHODS.  POST
is not, so the POST requests issued by the dispatcher are never retried on
a status code. -/
def is_method_retryable (method : PyStr) : Bool :=
  DEFAULT_ALLOWED_METHODS.any (fun m => m == method)

/-- urllib3 retry loop around one logical request: after each attempt,
Retry.is_retry first gates on the method (the allowed-methods check runs
before the forcelist is consulted) and then on the status forcelist.  Only
when both pass is the attempt retried while retries remain; a forcelisted
status with no retries left raises MaxRetryError (exhausted).  Any response
failing the is_retry gate is returned as-is after that attempt.  The
transport is indexed by attempt number, and the returned Nat is the total
number of attempts made. -/
def runRetries (transport : Nat → HttpResponse) (forcelist : List Nat)
    (methodRetryable : Bool) : Nat → Nat → PostOutcome × Nat
  | attempt, 0 =>
    let r := transport attempt
    if methodRetryable && forcelist.contains r.status then (.exhausted, attempt + 1)
    else (.resp r, attempt + 1)
  | attempt, n + 1 =>
    let r := transport attempt
    if methodRetryable && forcelist.contains r.status then
      runRetries transport forcelist methodRetryable (attempt + 1) n
    else (.resp r, attempt + 1)

/-- api.make_api_request: a Session with Retry(total=3,
status_forcelist=[500, 502, 503, 504]) mounted for the https:// prefix
only, so other URLs keep the default adapter with zero retries and an empty
forcelist.  The session only issues session.post, and POST fails urllib3's
allowed-methods gate, so the configured status retries are inert; then
response.raise_for_status, then the JSON decode with
response.json().get("response", "").  The returned Nat counts transport
attempts (the wall-clock response time of the source is not modeled). -/
def make_api_request (url : PyStr) (transport : Nat → HttpResponse) :
    Except ApiError (PyStr × Nat) :=
  let retryCfg : Nat × List Nat :=
    if pyStartsWith url "https://".data then (3, statusForcelist) else (0, [])
  match runRetries transport retryCfg.2 (is_method_retryable "POST".data) 0 retryCfg.1 with
  | (.exhausted, n) => .error (.requestException n)
  | (.resp r, n) =>
    if 400 ≤ r.status then .error (.httpStatusError r.status n)
    else
      match r.body with
      | none => .error (.jsonDecodeError n)
      | some fld => .ok (fld.getD [], n)

/-- Attempt count observable of a make_api_request run. -/
def attemptsOf : Except ApiError (PyStr × Nat) → Nat
  | .ok (_, n) => n
  | .error (.requestException n) => n
  | .error (.httpStatusError _ n) => n
  | .error (.jsonDecodeError n) => n

/-- Request body assembled by api.ask_llm (the data dict): optional keys are
none when the source omits them from the dict. -/
structure Payload where
  user : PyStr
  model : PyStr
  system : PyStr
  prompt : List PyStr
  stop : List PyStr
  temperature : Option ℚ
  top_p : Option ℚ
  max_tokens : Option Int
  max_completion_tokens : Option Int
deriving DecidableEq

/-- Payload construction of api.ask_llm lines 152-171: base fields plus, for
a model supporting standard parameters, temperature/top_p/max_tokens with
the requested max_tokens capped at the model ceiling; otherwise only a
capped max_completion_tokens. -/
def build_payload (argo_user model system_prompt prompt : PyStr) (cfg : ModelConfig)
    (temperature top_p : ℚ) (max_tokens : Int) : Payload :=
  if cfg.supports_standard_params then
    { user := argo_user, model := model, system := system_prompt,
      prompt := [prompt], stop := [],
      temperature := some temperature, top_p := some top_p,
      max_tokens := some (min max_tokens cfg.max_tokens),
      max_completion_tokens := none }
  else
    { user := argo_user, model := model, system := system_prompt,
      prompt := [prompt], stop := [],
      temperature := none, top_p := none, max_tokens := none,
      max_completion_tokens := some (min max_tokens cfg.max_tokens) }

/-- Errors of ask_llm that reach the caller as exceptions: the ValueError
for a missing URL or user, and whatever make_api_request raises. -/
inductive AskError where
  | missingConfig
  | transport (e : ApiError)
deriving DecidableEq

/-- api.ask_llm: after the URL/user check (a raised ValueError), an invalid
model or invalid parameters are caught, logged, and turned into an empty
string result with no network activity; otherwise the payload is built and
dispatched.  The result triple instruments the source's return value with
the number of transport attempts and with the payload that was sent (none
when validation stopped the call before any payload existed). -/
def ask_llm (transport : Nat → HttpResponse) (argo_url argo_user : PyStr)
    (prompt system_prompt model : PyStr) (temperature top_p : ℚ) (max_tokens : Int) :
    Except AskError (PyStr × Nat × Option Payload) :=
  if argo_url.isEmpty || argo_user.isEmpty then .error .missingConfig
  else
    match validate_model model with
    | .error _ => .ok ([], 0, none)
    | .ok cfg =>
      match validate_parameters temperature top_p max_tokens with
      | .error _ => .ok ([], 0, none)
      | .ok _ =>
        let data := build_payload argo_user model system_prompt prompt cfg temperature top_p max_tokens
        match make_api_request argo_url transport with
        | .error e => .error (.transport e)
        | .ok (resp, n) => .ok (resp, n, some data)

/-- Literal placeholder token recognized by format_prompt_with_context. -/
def placeholder : PyStr := "\x7bcontext\x7d".data

/-- Python truthiness of an optional string: present and non-empty. -/
def pyTruthy (o : Option PyStr) : Bool :=
  match o with
  | none => false
  | some s => !s.isEmpty

/-- cli.format_prompt_with_context: prepend a truthy system prompt separated
by a blank line; then, when context was supplied, substitute every
occurrence of the placeholder, or append the context after the explanatory
separator when the placeholder is absent. -/
def format_prompt_with_context (prompt : PyStr) (context : Option PyStr)
    (system_prompt : Option PyStr) : PyStr :=
  let fp := if pyTruthy system_prompt then (system_prompt.getD []) ++ "\n\n".data ++ prompt else prompt
  match context with
  | none => fp
  | some ctx =>
    if pyContainsSub placeholder fp then pyReplace fp placeholder ctx
    else fp ++ "\nreply based on the content here:".data ++ ctx

/-- cli.clean_response: none models the IndexError on lines[0] when
splitlines is empty (response = ""); otherwise strip a fenced first and last
line, or return the response unchanged. -/
def clean_response (response : PyStr) : Option PyStr :=
  match pySplitlines response with
  | [] => none
  | first :: rest =>
    if pyStartsWith first "```".data && pyStartsWith (List.getLastD (first :: rest) []) "```".data
    then some (pyJoin "\n".data rest.dropLast)
    else some response

/-- Key column of a mapping, in order. -/
def keysOf (d : List (PyStr × PyStr)) : List PyStr := d.map (fun e => e.1)

/-- Membership test for a key of a mapping. -/
def hasKey (d : List (PyStr × PyStr)) (k : PyStr) : Bool := d.any (fun e => e.1 == k)

/-- Sum, over the entries of a mapping, of the token count of the stored
text, with an uncountable text contributing zero. -/
def mappingSum (count : PyStr → Option Nat) (d : List (PyStr × PyStr)) : Nat :=
  (d.map (fun e => (count e.2).getD 0)).sum

/-- Paths of a candidate list whose extraction succeeds; these are exactly
the paths the processing loop stores in the mapping. -/
def readablePaths (read : PyStr → Option PyStr) (files : List PyStr) : List PyStr :=
  files.filter (fun p => (read p).isSome)

/-- Fixture: a filesystem holding two regular files a.txt and b.txt. -/
def fsTwoFiles : FS where
  isFile := fun p => p == "a.txt".data || p == "b.txt".data
  isDir := fun _ => false
  glob := fun _ => []
  walk := fun _ => []
  read := fun p =>
    if p == "a.txt".data then some "alpha".data
    else if p == "b.txt".data then some "beta".data
    else none

/-- Fixture: a token counter charging sixty tokens for every text. -/
def countSixty : PyStr → Option Nat := fun _ => some 60

/-- Fixture: a filesystem holding the single regular file a.txt. -/
def fsOneFile : FS where
  isFile := fun p => p == "a.txt".data
  isDir := fun _ => false
  glob := fun _ => []
  walk := fun _ => []
  read := fun p => if p == "a.txt".data then some "hello".data else none

/-- Fixture: a token counter charging five tokens for every text. -/
def countFive : PyStr → Option Nat := fun _ => some 5

/-- Fixture: a token counter charging the length of the text. -/
def countLen : PyStr → Option Nat := fun s => some s.length

/-- Fixture: extraction succeeding only for u.txt. -/
def readUnknown : PyStr → Option PyStr :=
  fun p => if p == "u.txt".data then some "mystery".data else none

/-- Fixture: a token counter that always fails (unknown count). -/
def countNone : PyStr → Option Nat := fun _ => none

/-- Fixture: a filesystem with one directory src (holding a supported and an
unsupported file) and one regular file notes.xyz of unsupported extension. -/
def fsC8 : FS where
  isFile := fun p => p == "notes.xyz".data
  isDir := fun p => p == "src".data
  glob := fun _ => []
  walk := fun p =>
    if p == "src".data then [("src".data, "Main.PY".data), ("src".data, "img.bin".data)]
    else []
  read := fun _ => none

/-- Fixture: a transport answering 503 on the first two attempts, then 200. -/
def transport503x2 : Nat → HttpResponse :=
  fun n => if n < 2 then ⟨503, some none⟩ else ⟨200, some (some "ok".data)⟩

/-- Fixture: a transport that always succeeds with a response field. -/
def transportOk : Nat → HttpResponse := fun _ => ⟨200, some (some "resp".data)⟩

end ArgoAgent

namespace ArgoAgent


/-- Key membership distributes over concatenation of mappings. -/
theorem hasKey_append (d1 d2 : List (PyStr × PyStr)) (k : PyStr) :
    hasKey (d1 ++ d2) k = (hasKey d1 k || hasKey d2 k) := by
  simp [hasKey]

/-- Absence of a key is absence from the key column. -/
theorem hasKey_eq_false_iff (d : List (PyStr × PyStr)) (k : PyStr) :
    hasKey d k = false ↔ k ∉ keysOf d := by
  simp only [hasKey, keysOf]
  rw [← Bool.not_eq_true, List.any_eq_true]
  simp

/-- Inserting a fresh key appends the entry. -/
theorem dictInsert_fresh (d : List (PyStr × PyStr)) (k v : PyStr)
    (h : hasKey d k = false) : dictInsert d k v = d ++ [(k, v)] := by
  unfold hasKey at h
  simp [dictInsert, h]

/-- Token sums add over concatenation of mappings. -/
theorem mappingSum_append (count : PyStr → Option Nat) (d1 d2 : List (PyStr × PyStr)) :
    mappingSum count (d1 ++ d2) = mappingSum count d1 + mappingSum count d2 := by
  simp [mappingSum]

/-- Key columns concatenate. -/
theorem keysOf_append (d1 d2 : List (PyStr × PyStr)) :
    keysOf (d1 ++ d2) = keysOf d1 ++ keysOf d2 := by
  simp [keysOf]

/-- dict.update with pairwise-fresh keys is concatenation. -/
theorem dictUpdate_fresh (entries : List (PyStr × PyStr)) :
    ∀ d : List (PyStr × PyStr), (keysOf entries).Nodup →
    (∀ k ∈ keysOf entries, hasKey d k = false) →
    dictUpdate d entries = d ++ entries := by
  induction entries with
  | nil => intro d _ _; simp [dictUpdate]
  | cons e es ih =>
    intro d hnd hfresh
    have hk : hasKey d e.1 = false := hfresh e.1 (by simp [keysOf])
    have hnd2 : (keysOf es).Nodup := by
      have := hnd
      simp only [keysOf, List.map_cons, List.nodup_cons] at this
      exact this.2
    have hnotin : e.1 ∉ keysOf es := by
      have := hnd
      simp only [keysOf, List.map_cons, List.nodup_cons] at this
      exact this.1
    have hfresh2 : ∀ k ∈ keysOf es, hasKey (d ++ [(e.1, e.2)]) k = false := by
      intro k hkm
      rw [hasKey_append]
      have h1 : hasKey d k = false := by
        apply hfresh k
        simp only [keysOf, List.map_cons, List.mem_cons]
        right
        simpa [keysOf] using hkm
      have hkne : e.1 ≠ k := fun hh => hnotin (hh ▸ hkm)
      rw [h1]
      simp [hasKey, hkne]
    rw [show dictUpdate d (e :: es) = dictUpdate (dictInsert d e.1 e.2) es from rfl]
    rw [dictInsert_fresh d e.1 e.2 hk]
    rw [ih (d ++ [(e.1, e.2)]) hnd2 hfresh2]
    simp

/-- Central accounting invariant of the shared processing loop: on a
successful budgeted run over candidate files whose readable paths are
distinct and fresh for the starting mapping, the total grows by exactly the
sum of the stored counted entries, and the key column extends by exactly
the readable paths. -/
theorem processFiles_ok_sum (read : PyStr → Option PyStr) (count : PyStr → Option Nat) (B : Nat) :
    ∀ (files : List PyStr) (ctx0 : List (PyStr × PyStr)) (t0 : Nat)
      (ctx : List (PyStr × PyStr)) (total : Nat),
    processFiles read count (some B) files ctx0 t0 = .ok (ctx, total) →
    (readablePaths read files).Nodup →
    (∀ p ∈ readablePaths read files, hasKey ctx0 p = false) →
    mappingSum count ctx + t0 = mappingSum count ctx0 + total ∧
    keysOf ctx = keysOf ctx0 ++ readablePaths read files := by
  intro files
  induction files with
  | nil =>
    intro ctx0 t0 ctx total hok _ _
    simp only [processFiles, Except.ok.injEq, Prod.mk.injEq] at hok
    obtain ⟨h1, h2⟩ := hok
    subst h1; subst h2
    simp [readablePaths]
  | cons p ps ih =>
    intro ctx0 t0 ctx total hok hnd hfresh
    cases hread : read p with
    | none =>
      simp only [processFiles, hread] at hok
      have hr : readablePaths read (p :: ps) = readablePaths read ps := by
        simp [readablePaths, hread]
      rw [hr] at hnd hfresh
      rw [hr]
      exact ih ctx0 t0 ctx total hok hnd hfresh
    | some c =>
      simp only [processFiles, hread] at hok
      have hrp : readablePaths read (p :: ps) = p :: readablePaths read ps := by
        simp [readablePaths, hread]
      rw [hrp] at hnd hfresh
      rw [hrp]
      have hkp : hasKey ctx0 p = false := hfresh p (List.mem_cons_self p _)
      have hins : dictInsert ctx0 p c = ctx0 ++ [(p, c)] := dictInsert_fresh ctx0 p c hkp
      rw [List.nodup_cons] at hnd
      obtain ⟨hpnotin, hnd2⟩ := hnd
      have hfresh2 : ∀ q ∈ readablePaths read ps, hasKey (ctx0 ++ [(p, c)]) q = false := by
        intro q hq
        rw [hasKey_append]
        have h1 : hasKey ctx0 q = false := hfresh q (List.mem_cons_of_mem p hq)
        have hqp : p ≠ q := fun hh => hpnotin (hh ▸ hq)
        rw [h1]
        simp [hasKey, hqp]
      cases hcount : count c with
      | none =>
        simp only [hcount] at hok
        rw [hins] at hok
        obtain ⟨hsum, hkeys⟩ := ih (ctx0 ++ [(p, c)]) t0 ctx total hok hnd2 hfresh2
        rw [mappingSum_append] at hsum
        have hone : mappingSum count [(p, c)] = 0 := by simp [mappingSum, hcount]
        rw [hone] at hsum
        constructor
        · omega
        · rw [hkeys, keysOf_append]
          simp [keysOf]
      | some tk =>
        simp only [hcount] at hok
        by_cases hlim : t0 + tk > B
        · rw [if_pos hlim] at hok
          exact absurd hok (by simp)
        · rw [if_neg hlim] at hok
          rw [hins] at hok
          obtain ⟨hsum, hkeys⟩ := ih (ctx0 ++ [(p, c)]) (t0 + tk) ctx total hok hnd2 hfresh2
          rw [mappingSum_append] at hsum
          have hone : mappingSum count [(p, c)] = tk := by simp [mappingSum, hcount]
          rw [hone] at hsum
          constructor
          · omega
          · rw [hkeys, keysOf_append]
            simp [keysOf]

/-- Dispatching one path specification runs the shared processing loop over
exactly the files that specification resolves to. -/
theorem dispatchSpec_eq_processFiles (fs : FS) (count : PyStr → Option Nat)
    (p : PyStr) (mt : Option Nat) :
    dispatchSpec fs count p mt = processFiles fs.read count mt (resolveSpec fs p) [] 0 := by
  unfold dispatchSpec resolveSpec handle_wildcard_pattern handle_directory handle_single_file
  split_ifs <;> rfl

/-- Readable paths distribute over concatenated candidate lists. -/
theorem readablePaths_append (read : PyStr → Option PyStr) (l1 l2 : List PyStr) :
    readablePaths read (l1 ++ l2) = readablePaths read l1 ++ readablePaths read l2 := by
  simp [readablePaths]

/-- Accounting invariant lifted to the multi-specification loop of
get_context_from_paths: on a successful budgeted run whose readable resolved
paths are distinct and fresh for the starting mapping, the total grows by
exactly the sum of the stored counted entries. -/
theorem get_context_loop_ok_sum (fs : FS) (count : PyStr → Option Nat) (B : Nat) :
    ∀ (ps : List PyStr) (ctx0 : List (PyStr × PyStr)) (t0 : Nat)
      (ctx : List (PyStr × PyStr)) (total : Nat),
    get_context_loop fs count (some B) ps ctx0 t0 = .ok (ctx, total) →
    (readablePaths fs.read (ps.flatMap (resolveSpec fs))).Nodup →
    (∀ q ∈ readablePaths fs.read (ps.flatMap (resolveSpec fs)), hasKey ctx0 q = false) →
    mappingSum count ctx + t0 = mappingSum count ctx0 + total ∧
    keysOf ctx = keysOf ctx0 ++ readablePaths fs.read (ps.flatMap (resolveSpec fs)) := by
  intro ps
  induction ps with
  | nil =>
    intro ctx0 t0 ctx total hok _ _
    simp only [get_context_loop, Except.ok.injEq, Prod.mk.injEq] at hok
    obtain ⟨h1, h2⟩ := hok
    subst h1; subst h2
    simp [readablePaths]
  | cons p ps ih =>
    intro ctx0 t0 ctx total hok hnd hfresh
    have hbind : (p :: ps).flatMap (resolveSpec fs)
        = resolveSpec fs p ++ ps.flatMap (resolveSpec fs) := List.flatMap_cons p ps (resolveSpec fs)
    rw [hbind, readablePaths_append] at hnd hfresh
    rw [hbind, readablePaths_append]
    cases hd : dispatchSpec fs count p (some B) with
    | error e =>
      simp only [get_context_loop, hd] at hok
      exact absurd hok (by simp)
    | ok pr =>
      obtain ⟨newCtx, newTok⟩ := pr
      simp only [get_context_loop, hd] at hok
      rw [dispatchSpec_eq_processFiles] at hd
      have hndHead : (readablePaths fs.read (resolveSpec fs p)).Nodup :=
        hnd.of_append_left
      have hndTail : (readablePaths fs.read (ps.flatMap (resolveSpec fs))).Nodup :=
        hnd.of_append_right
      have hdisj : (readablePaths fs.read (resolveSpec fs p)).Disjoint
          (readablePaths fs.read (ps.flatMap (resolveSpec fs))) :=
        List.disjoint_of_nodup_append hnd
      obtain ⟨hsum1, hkeys1⟩ := processFiles_ok_sum fs.read count B (resolveSpec fs p)
        [] 0 newCtx newTok hd hndHead (by intro q _; simp [hasKey])
      have hsum1n : mappingSum count newCtx = newTok := by
        simpa [mappingSum] using hsum1
      have hkeys1n : keysOf newCtx = readablePaths fs.read (resolveSpec fs p) := by
        simpa [keysOf] using hkeys1
      have hupd : dictUpdate ctx0 newCtx = ctx0 ++ newCtx := by
        apply dictUpdate_fresh
        · rw [hkeys1n]; exact hndHead
        · intro k hk
          rw [hkeys1n] at hk
          exact hfresh k (List.mem_append_left _ hk)
      rw [hupd] at hok
      have hfresh2 : ∀ q ∈ readablePaths fs.read (ps.flatMap (resolveSpec fs)),
          hasKey (ctx0 ++ newCtx) q = false := by
        intro q hq
        rw [hasKey_append]
        have h1 : hasKey ctx0 q = false := hfresh q (List.mem_append_right _ hq)
        have h2 : hasKey newCtx q = false := by
          rw [hasKey_eq_false_iff, hkeys1n]
          intro hmem
          exact hdisj hmem hq
        rw [h1, h2]
        rfl
      obtain ⟨hsum2, hkeys2⟩ := ih (ctx0 ++ newCtx) (t0 + newTok) ctx total hok hndTail hfresh2
      rw [mappingSum_append, hsum1n] at hsum2
      constructor
      · omega
      · rw [hkeys2, keysOf_append, hkeys1n, List.append_assoc]

/-- Claim C1.  The claim states that aggregation fails with the
token-budget-exceeded error whenever the counted tokens of the processed
files sum to more than the budget.  The code violates this: each handler
restarts its running total at zero, get_context_from_paths adds the
subtotals without rechecking the budget, and TokenLimitExceededError (whose
docstring promises to fire when the total exceeds the limit) is never
raised across specifications.  Here two 60-token files given as two path
specifications pass a budget of 100: the run returns successfully with
total_tokens 120 > 100. -/
theorem C1_budget_not_enforced_across_specs :
    get_context_from_paths fsTwoFiles countSixty ["a.txt".data, "b.txt".data] (some 100)
      = .ok ([("a.txt".data, "alpha".data), ("b.txt".data, "beta".data)], 120)
    ∧ 100 < 120 := by
  constructor
  · decide
  · decide

/-- Claim C2, counterexample.  The claim asserts that total_tokens always
equals the sum of the counted entries of the returned mapping, also when
the same file is reached through two path specifications.  Listing a.txt
twice with a budget of 1000 refutes it: the dict keeps one five-token entry
for the key a.txt, yet total_tokens is 10 because both occurrences were
counted. -/
theorem C2_duplicate_key_breaks_sum :
    get_context_from_paths fsOneFile countFive ["a.txt".data, "a.txt".data] (some 1000)
      = .ok ([("a.txt".data, "hello".data)], 10)
    ∧ mappingSum countFive [("a.txt".data, "hello".data)] = 5 := by
  constructor
  · decide
  · decide

/-- Claim C2, amended.  For every budgeted aggregation run of
get_context_from_paths that completes without aborting, if no path key
repeats among the successfully read resolved files then total_tokens equals
the sum of the token counts of the entries of the returned mapping (an
entry with unknown count contributing zero); when a path key does repeat,
each occurrence adds its count to total_tokens while the mapping keeps a
single entry per key. -/
theorem C2_total_eq_mapping_sum (fs : FS) (count : PyStr → Option Nat)
    (paths : List PyStr) (B : Nat) (ctx : List (PyStr × PyStr)) (total : Nat)
    (hnd : (readablePaths fs.read (paths.flatMap (resolveSpec fs))).Nodup)
    (hok : get_context_from_paths fs count paths (some B) = .ok (ctx, total)) :
    total = mappingSum count ctx := by
  have h := get_context_loop_ok_sum fs count B paths [] 0 ctx total hok hnd
    (by intro q _; simp [hasKey])
  have hsum := h.1
  simp only [mappingSum, List.map_nil, List.sum_nil, Nat.add_zero, Nat.zero_add] at hsum
  exact hsum.symm

/-- Claim C2, witness: a run over two distinct files with budget 1000;
5 + 4 length-counted tokens are counted and equal the mapping sum. -/
theorem C2_total_eq_mapping_sum_witness :
    9 = mappingSum countLen [("a.txt".data, "alpha".data), ("b.txt".data, "beta".data)] :=
  C2_total_eq_mapping_sum fsTwoFiles countLen ["a.txt".data, "b.txt".data] 1000
    [("a.txt".data, "alpha".data), ("b.txt".data, "beta".data)] 9
    (by decide) (by decide)

/-- Claim C3.  A file whose extraction succeeds but whose token count is
unknown is still stored in the mapping while adding nothing to the running
total, and processing it cannot raise the token-budget-exceeded error: the
step over such a file is exactly a dictionary insertion with an unchanged
total, and a budgeted run over just that file succeeds with total zero for
every budget. -/
theorem C3_unknown_count_contributes_text_only (read : PyStr → Option PyStr)
    (count : PyStr → Option Nat) (mt : Option Nat) (B : Nat) (p c : PyStr)
    (ps : List PyStr) (ctx : List (PyStr × PyStr)) (total : Nat)
    (hread : read p = some c) (hcount : count c = none) :
    processFiles read count mt (p :: ps) ctx total
      = processFiles read count mt ps (dictInsert ctx p c) total
    ∧ processFiles read count (some B) [p] [] 0 = .ok ([(p, c)], 0) := by
  constructor
  · cases mt with
    | none => simp [processFiles, hread]
    | some limit => simp [processFiles, hread, hcount]
  · simp [processFiles, hread, hcount, dictInsert]

/-- Claim C3, witness: the file u.txt extracts to text whose token count is
unknown; with budget 7 it is stored with total zero and no error. -/
theorem C3_unknown_count_witness :
    processFiles readUnknown countNone (some 7) ["u.txt".data] [] 0
      = .ok ([("u.txt".data, "mystery".data)], 0) :=
  (C3_unknown_count_contributes_text_only readUnknown countNone (some 7) 7
    "u.txt".data "mystery".data [] [] 0 (by decide) rfl).2

/-- Response failing the is_retry gate (method not retryable, or status
outside the forcelist): the loop stops with that response after this
attempt, whatever the remaining retry count. -/
theorem runRetries_step_stop (t : Nat → HttpResponse) (fl : List Nat) (g : Bool)
    (a n : Nat) (h : (g && fl.contains (t a).status) = false) :
    runRetries t fl g a n = (.resp (t a), a + 1) := by
  cases n <;> (simp only [runRetries, h]; rfl)

/-- POST fails urllib3's default allowed-methods gate. -/
theorem post_not_retryable : is_method_retryable "POST".data = false := by
  decide

/-- Every make_api_request call makes exactly one transport attempt: the
session only posts, POST fails the allowed-methods gate of Retry.is_retry,
so the configured status forcelist never triggers a retry, and the outcome
is decided by raise_for_status and the JSON decode of the first response. -/
theorem make_api_request_one_attempt (url : PyStr) (t : Nat → HttpResponse) :
    make_api_request url t =
      (if 400 ≤ (t 0).status then .error (.httpStatusError (t 0).status 1)
       else match (t 0).body with
            | none => .error (.jsonDecodeError 1)
            | some fld => .ok (fld.getD [], 1)) := by
  have hstop : ∀ (fl : List Nat) (k : Nat),
      runRetries t fl (is_method_retryable "POST".data) 0 k = (.resp (t 0), 1) := by
    intro fl k
    exact runRetries_step_stop t fl _ 0 k (by rw [post_not_retryable]; rfl)
  by_cases hc : pyStartsWith url "https://".data
  · simp [make_api_request, hc, hstop]
  · simp [make_api_request, hc, hstop]

/-- Claim C4, counterexample.  The claim has the dispatcher retry on 503
and, for a transport returning 503 twice then 200, succeed with the 200
body after exactly 3 invocations.  In fact the session only issues POST,
which urllib3's Retry excludes from its default allowed methods, and
is_retry gates on the method before consulting status_forcelist: the
configured retries never fire.  On that very transport the code makes a
single attempt and raise_for_status raises on the 503. -/
theorem C4_no_retry_on_post :
    make_api_request "https://argo.example/api".data transport503x2
      = .error (.httpStatusError 503 1) := by
  decide

/-- Claim C4, amended.  make_api_request configures Retry(total=3,
backoff_factor=0.3, status_forcelist=[500, 502, 503, 504]) on the https
adapter, but the dispatcher issues only POST requests and POST is outside
urllib3's default allowed-methods set, so status-triggered retries never
occur: every call makes exactly one transport attempt; a 503 first response
is returned and surfaces as the raise_for_status error after that single
attempt, and a 200 response has its response field returned after exactly
one attempt. -/
theorem C4_single_attempt_policy (transport : Nat → HttpResponse) (url r : PyStr) :
    (∀ (t2 : Nat → HttpResponse) (u2 : PyStr), attemptsOf (make_api_request u2 t2) = 1)
    ∧ ((transport 0).status = 503 →
        make_api_request url transport = .error (.httpStatusError 503 1))
    ∧ (transport 0 = ⟨200, some (some r)⟩ →
        make_api_request url transport = .ok (r, 1)) := by
  refine ⟨?_, ?_, ?_⟩
  · intro t2 u2
    rw [make_api_request_one_attempt]
    by_cases hst : 400 ≤ (t2 0).status
    · simp [hst, attemptsOf]
    · cases hb : (t2 0).body <;> simp [hst, hb, attemptsOf]
  · intro h503
    rw [make_api_request_one_attempt, h503]
    norm_num
  · intro h200
    rw [make_api_request_one_attempt, h200]
    norm_num

/-- Claim C4, witness: a transport answering 200 with a response field is
invoked exactly once and that field is returned. -/
theorem C4_single_attempt_witness :
    make_api_request "https://argo.example".data transportOk = .ok ("resp".data, 1) :=
  (C4_single_attempt_policy transportOk "https://argo.example".data "resp".data).2.2
    (by decide)

/-- Claim C5, counterexample.  The claim says a validation failure is
surfaced to the caller as an invalid-parameter error.  With temperature 3
(outside [0,2]) and a transport that would succeed, ask_llm instead catches
the ValueError, logs it, and returns normally with the empty string — zero
transport attempts and no payload — so no error reaches the caller. -/
theorem C5_validation_swallowed :
    ask_llm transportOk "https://argo.example".data "u".data "hi".data "s".data
      "gpt4o".data 3 1 100 = .ok ([], 0, none) := by
  decide

/-- Claim C5, amended.  For every call with temperature outside [0,2] or
top_p outside [0,1] or max_tokens not positive, and likewise for every call
naming a model absent from the model table, validation stops the call
before any network activity — the transport is invoked zero times — and
ask_llm returns the empty string to its caller (the failure is logged, not
raised). -/
theorem C5_invalid_input_no_network (transport : Nat → HttpResponse)
    (url user prompt sys model : PyStr) (t p : ℚ) (mt : Int)
    (hurl : url.isEmpty = false) (huser : user.isEmpty = false)
    (hbad : validate_model model = .error () ∨ validate_parameters t p mt = .error ()) :
    ask_llm transport url user prompt sys model t p mt = .ok ([], 0, none) := by
  unfold ask_llm
  rw [hurl, huser]
  simp only [Bool.or_self, Bool.false_eq_true, if_false]
  rcases hbad with hb | hb
  · rw [hb]
  · cases hm : validate_model model with
    | error e => rfl
    | ok cfg => rw [hb]

/-- Claim C5, witness: a model name absent from the table yields the empty
result with zero transport attempts. -/
theorem C5_invalid_input_witness :
    ask_llm transportOk "https://argo.example".data "u".data "hi".data "s".data
      "nosuchmodel".data 1 1 100 = .ok ([], 0, none) :=
  C5_invalid_input_no_network transportOk "https://argo.example".data "u".data
    "hi".data "s".data "nosuchmodel".data 1 1 100 (by decide) (by decide)
    (Or.inl (by decide))

/-- Claim C6.  For a model whose configuration from VALID_MODELS has
supports_standard_params = false, the payload built by ask_llm carries no
temperature and no top_p key and exactly one completion-size field,
max_completion_tokens = min(requested, model ceiling); for a model with
supports_standard_params = true, max_tokens carries that same minimum and
max_completion_tokens is absent.  The last part ties the payload returned
by a successful ask_llm run to build_payload. -/
theorem C6_payload_parameter_shaping (user model sys prompt : PyStr)
    (t p : ℚ) (mt : Int) (cfg : ModelConfig)
    (hm : validate_model model = .ok cfg) :
    (cfg.supports_standard_params = false →
      (build_payload user model sys prompt cfg t p mt).temperature = none
      ∧ (build_payload user model sys prompt cfg t p mt).top_p = none
      ∧ (build_payload user model sys prompt cfg t p mt).max_tokens = none
      ∧ (build_payload user model sys prompt cfg t p mt).max_completion_tokens
          = some (min mt cfg.max_tokens))
    ∧ (cfg.supports_standard_params = true →
      (build_payload user model sys prompt cfg t p mt).max_tokens
          = some (min mt cfg.max_tokens)
      ∧ (build_payload user model sys prompt cfg t p mt).max_completion_tokens = none)
    ∧ (∀ (transport : Nat → HttpResponse) (url : PyStr) (resp : PyStr) (n : Nat)
        (pl : Payload),
        ask_llm transport url user prompt sys model t p mt = .ok (resp, n, some pl) →
        pl = build_payload user model sys prompt cfg t p mt) := by
  refine ⟨?_, ?_, ?_⟩
  · intro h
    simp [build_payload, h]
  · intro h
    simp [build_payload, h]
  · intro transport url resp n pl hrun
    unfold ask_llm at hrun
    by_cases hu : (url.isEmpty || user.isEmpty) = true
    · rw [if_pos hu] at hrun
      exact absurd hrun (by simp)
    · rw [if_neg hu] at hrun
      rw [hm] at hrun
      cases hv : validate_parameters t p mt with
      | error e =>
        rw [hv] at hrun
        simp at hrun
      | ok u =>
        rw [hv] at hrun
        cases hreq : make_api_request url transport with
        | error e =>
          rw [hreq] at hrun
          exact absurd hrun (by simp)
        | ok pr =>
          obtain ⟨r0, n0⟩ := pr
          rw [hreq] at hrun
          simp only [Except.ok.injEq, Prod.mk.injEq, Option.some.injEq] at hrun
          exact hrun.2.2.symm

/-- Claim C6, witness: for gpto1 (no standard parameters, ceiling 200000)
the built payload carries only max_completion_tokens = 500; for gpt4o
(standard parameters, ceiling 16384) it carries max_tokens = 500. -/
theorem C6_payload_witness :
    (build_payload "u".data "gpto1".data "s".data "p".data ⟨200000, false⟩ 1 1 500).max_completion_tokens
      = some 500
    ∧ (build_payload "u".data "gpt4o".data "s".data "p".data ⟨16384, true⟩ 1 1 500).max_tokens
      = some 500 := by
  constructor
  · have h := (C6_payload_parameter_shaping "u".data "gpto1".data "s".data "p".data
      1 1 500 ⟨200000, false⟩ (by decide)).1 rfl
    exact h.2.2.2.trans (by decide)
  · have h := (C6_payload_parameter_shaping "u".data "gpt4o".data "s".data "p".data
      1 1 500 ⟨16384, true⟩ (by decide)).2.1 rfl
    exact h.1.trans (by decide)

/-- Claim C7.  Prompt composition: a present (non-empty) system instruction
is prepended to the user prompt separated by a blank line, and context
handling then proceeds on the combined prompt; when context is supplied and
the working prompt contains the literal placeholder, every occurrence is
replaced by the context; when no placeholder is present the context is
appended after the explanatory separator line; and the composition is a
pure function, so equal inputs yield identical outputs. -/
theorem C7_prompt_composition (p ctx s : PyStr) :
    (s ≠ [] →
      format_prompt_with_context p (some ctx) (some s)
        = format_prompt_with_context (s ++ "\n\n".data ++ p) (some ctx) none
      ∧ format_prompt_with_context p none (some s) = s ++ "\n\n".data ++ p)
    ∧ (pyContainsSub placeholder p = true →
        format_prompt_with_context p (some ctx) none = pyReplace p placeholder ctx)
    ∧ (pyContainsSub placeholder p = false →
        format_prompt_with_context p (some ctx) none
          = p ++ "\nreply based on the content here:".data ++ ctx)
    ∧ format_prompt_with_context p (some ctx) (some s)
        = format_prompt_with_context p (some ctx) (some s) := by
  refine ⟨?_, ?_, ?_, rfl⟩
  · intro hs
    have hne : s.isEmpty = false := by
      cases s with
      | nil => exact absurd rfl hs
      | cons a as => rfl
    constructor
    · simp [format_prompt_with_context, pyTruthy, hne]
    · simp [format_prompt_with_context, pyTruthy, hne]
  · intro hc
    simp [format_prompt_with_context, pyTruthy, hc]
  · intro hc
    simp [format_prompt_with_context, pyTruthy, hc]

/-- Claim C7, witness: a prompt containing the placeholder has the
placeholder replaced by the context. -/
theorem C7_prompt_composition_witness :
    format_prompt_with_context "use \x7bcontext\x7d here".data (some "DATA".data) none
      = "use DATA here".data := by
  have h := (C7_prompt_composition "use \x7bcontext\x7d here".data "DATA".data []).2.1
    (by decide)
  exact h.trans (by decide)

/-- Claim C8.  A specification without wildcard characters naming an
existing regular file resolves to exactly that file, with no extension
filtering; a specification naming an existing directory resolves through
the recursive traversal and yields only joined paths of walk entries whose
file name passes the case-insensitive supported-extension test. -/
theorem C8_path_resolution (fs : FS) (p : PyStr) :
    (hasWildcard p = false → fs.isDir p = false → fs.isFile p = true →
      resolveSpec fs p = [p])
    ∧ (hasWildcard p = false → fs.isDir p = true →
      ∀ q ∈ resolveSpec fs p,
        ∃ e, e ∈ fs.walk p ∧ q = joinPath e.1 e.2 ∧ isSupportedFile e.2 = true) := by
  constructor
  · intro h1 h2 h3
    simp [resolveSpec, h1, h2, h3]
  · intro h1 h2 q hq
    simp only [resolveSpec, h1, h2, Bool.false_eq_true, if_false, if_true] at hq
    rw [List.mem_map] at hq
    obtain ⟨e, he, rfl⟩ := hq
    rw [List.mem_filter] at he
    exact ⟨e, he.1, rfl, he.2⟩

/-- Claim C8, witness: the direct file specification notes.xyz (extension
outside the allow-list) resolves to itself unfiltered. -/
theorem C8_path_resolution_witness :
    resolveSpec fsC8 "notes.xyz".data = ["notes.xyz".data] :=
  (C8_path_resolution fsC8 "notes.xyz".data).1 (by decide) (by decide) (by decide)

/-- Claim C9.  The retry adapter is mounted only for the https scheme: for
a URL with the http scheme, make_api_request performs exactly one transport
attempt, and a failing status on that single attempt (any 4xx/5xx,
including the otherwise-forcelisted ones) propagates immediately as the
raise_for_status error. -/
theorem C9_http_no_retries (url : PyStr) (transport : Nat → HttpResponse)
    (_hscheme : pyStartsWith url "http://".data = true) :
    attemptsOf (make_api_request url transport) = 1
    ∧ (400 ≤ (transport 0).status →
        make_api_request url transport
          = .error (.httpStatusError (transport 0).status 1)) := by
  constructor
  · rw [make_api_request_one_attempt]
    by_cases hst : 400 ≤ (transport 0).status
    · simp [hst, attemptsOf]
    · cases hb : (transport 0).body <;> simp [hst, hb, attemptsOf]
  · intro hst
    rw [make_api_request_one_attempt, if_pos hst]

/-- Claim C9, witness: an http URL with a transport answering 503 makes one
attempt and fails with the status error immediately. -/
theorem C9_http_no_retries_witness :
    make_api_request "http://argo.internal".data (fun _ => ⟨503, some none⟩)
      = .error (.httpStatusError 503 1) :=
  (C9_http_no_retries "http://argo.internal".data (fun _ => ⟨503, some none⟩)
    (by decide)).2 (by decide)

/-- Claim C10.  clean_response is partial at the empty string, whose
splitlines list is empty, so indexing the first line fails (modeled as
none); for a response whose first and last lines both start with the fence
marker it returns the interior lines joined by newlines; otherwise it
returns the response unchanged. -/
theorem C10_clean_response_cases :
    clean_response [] = none
    ∧ (∀ (s first : PyStr) (rest : List PyStr),
        pySplitlines s = first :: rest →
        pyStartsWith first "```".data = true →
        pyStartsWith (List.getLastD (first :: rest) []) "```".data = true →
        clean_response s = some (pyJoin "\n".data rest.dropLast))
    ∧ (∀ (s first : PyStr) (rest : List PyStr),
        pySplitlines s = first :: rest →
        ¬(pyStartsWith first "```".data = true ∧
          pyStartsWith (List.getLastD (first :: rest) []) "```".data = true) →
        clean_response s = some s) := by
  refine ⟨by decide, ?_, ?_⟩
  · intro s first rest hs h1 h2
    rw [List.getLastD_eq_getLast?] at h2
    simp [clean_response, hs, h1, h2]
  · intro s first rest hs hneg
    simp only [clean_response, hs]
    rw [if_neg]
    intro hcond
    rw [Bool.and_eq_true] at hcond
    exact hneg hcond

/-- Claim C10, witness: a fenced three-line response is stripped to its
interior line; the empty and unfenced cases are covered by the theorem's
other conjuncts. -/
theorem C10_clean_response_witness :
    clean_response "```md\nA\nB\n```".data = some "A\nB".data := by
  have h := C10_clean_response_cases.2.1 "```md\nA\nB\n```".data "```md".data
    ["A".data, "B".data, "```".data] (by decide) (by decide) (by decide)
  exact h.trans (by decide)

end ArgoAgent
